import Mathlib

/-!
Verification of xunitmerge (xunitmerge/xmerge.py) against its specification.

The development shallowly embeds the module's two core components:

* `merge_trees` — merging a list of parsed XUnit element trees into a single
  tree rooted at a `testsuites` container, aggregating the summary statistics
  held in the module-level `stats` dict (xmerge.py lines 85-136);
* `serialize_patched` — the `_serialize_xml` replacement installed by
  `patch_etree_cname`, which writes the text of elements whose tag is in
  `CNAME_TAGS` as a CDATA section and delegates everything else to the
  original serializer (xmerge.py lines 54-82), together with a model of the
  scoped monkey-patching performed by the context manager itself.

Python numbers are modelled exactly: a Python `float` is an unnormalized
integer fraction `PyFloat` (numerator/denominator) so that all arithmetic the
code performs (`float(...)` parsing of decimal literals, `+`, `int(...)`
truncation, `str(...)` formatting) is computable by kernel reduction; the
rational value of a `PyFloat` is recovered by `PyFloat.toRat` for the
specification-level statements.  Binary floating-point rounding is not
modelled: the aggregate values appearing in XUnit reports are short decimal
literals whose sums the spec itself describes as exact.
-/

namespace Xunitmerge

/-- An ElementTree element: tag, attribute mapping (association list in
insertion order, keys unique), optional text, child elements, optional tail
text.  This is the data model of `xml.etree.ElementTree.Element` as used by
xmerge.py. -/
inductive Element where
  | mk (tag : String) (attrib : List (String × String)) (text : Option String)
      (children : List Element) (tail : Option String)

def Element.tag : Element → String
  | .mk t _ _ _ _ => t

def Element.attrib : Element → List (String × String)
  | .mk _ a _ _ _ => a

def Element.text : Element → Option String
  | .mk _ _ x _ _ => x

def Element.children : Element → List Element
  | .mk _ _ _ cs _ => cs

def Element.tail : Element → Option String
  | .mk _ _ _ _ tl => tl

/-- Python's `dict.get(key)` on an element's attribute mapping. -/
def attribGet : List (String × String) → String → Option String
  | [], _ => none
  | (k, v) :: rest, key => if k = key then some v else attribGet rest key

/-- A Python `float`, modelled as an exact (unnormalized) integer fraction.
Every value the code constructs has a positive denominator. -/
structure PyFloat where
  num : Int
  den : Nat
deriving DecidableEq

/-- Python `float` addition (exact in this model). -/
def PyFloat.add (a b : PyFloat) : PyFloat :=
  ⟨a.num * (b.den : Int) + b.num * (a.den : Int), a.den * b.den⟩

/-- The rational value of a Python float (specification-level view). -/
def PyFloat.toRat (f : PyFloat) : ℚ := (f.num : ℚ) / (f.den : ℚ)

/-- Python `int(f)` on a float: truncation toward zero. -/
def PyFloat.trunc (f : PyFloat) : Int := f.num.tdiv (f.den : Int)

/-- A Python number as stored in the `stats` dict: an `int` or a `float`. -/
inductive PyNum where
  | int : Int → PyNum
  | float : PyFloat → PyNum
deriving DecidableEq

/-- Python `float(x)` applied to a number. -/
def PyNum.toFloat : PyNum → PyFloat
  | .int i => ⟨i, 1⟩
  | .float f => f

/-- Python `int(x)` applied to a number (truncation toward zero). -/
def PyNum.toInt : PyNum → Int
  | .int i => i
  | .float f => f.trunc

/-- The rational value of a Python number. -/
def PyNum.toRat : PyNum → ℚ
  | .int i => (i : ℚ)
  | .float f => f.toRat

/-- The denominator of a stored number is positive (an invariant of every
value the code builds; trivial for ints). -/
def PyNum.denPos : PyNum → Prop
  | .int _ => True
  | .float f => 0 < f.den

def isDigitChar (c : Char) : Bool := 48 ≤ c.toNat && c.toNat ≤ 57

/-- Numeric value of a digit string. -/
def digitsVal (cs : List Char) : Nat :=
  cs.foldl (fun a c => a * 10 + (c.toNat - 48)) 0

/-- Split a character list at each dot character. -/
def splitDotAux : List Char → List Char → List (List Char)
  | [], acc => [acc.reverse]
  | c :: rest, acc =>
      if c = '.' then acc.reverse :: splitDotAux rest [] else splitDotAux rest (c :: acc)

/-- Strip an optional leading sign, returning the sign and the remainder. -/
def splitSign : List Char → Int × List Char
  | '-' :: r => (-1, r)
  | '+' :: r => (1, r)
  | r => (1, r)

/-- Python `float(s)` on an attribute value: parses an optionally signed
decimal literal (`"3"`, `"0.5"`, `"1."`, `".5"`); returns `none` exactly when
Python's `float` would raise `ValueError`.  (Exponents, `inf`/`nan`,
underscores and surrounding whitespace do not occur in XUnit attribute values
and are not modelled.) -/
def pyFloat? (s : String) : Option PyFloat :=
  match splitDotAux (splitSign s.data).2 [] with
  | [a] =>
      if a.isEmpty || !(a.all isDigitChar) then none
      else some ⟨(splitSign s.data).1 * (digitsVal a : Int), 1⟩
  | [a, b] =>
      if (a.isEmpty && b.isEmpty) || !(a.all isDigitChar) || !(b.all isDigitChar) then none
      else some ⟨(splitSign s.data).1 * (digitsVal (a ++ b) : Int), 10 ^ b.length⟩
  | _ => none

def digitChar : Nat → Char
  | 0 => '0'
  | 1 => '1'
  | 2 => '2'
  | 3 => '3'
  | 4 => '4'
  | 5 => '5'
  | 6 => '6'
  | 7 => '7'
  | 8 => '8'
  | _ => '9'

/-- Decimal digits of a natural number (fuel-based so that it reduces in the
kernel; `n + 1` units of fuel always suffice). -/
def natDigitsAux : Nat → Nat → List Char
  | 0, _ => []
  | fuel + 1, n =>
      if n < 10 then [digitChar n]
      else natDigitsAux fuel (n / 10) ++ [digitChar (n % 10)]

def natStr (n : Nat) : String := String.mk (natDigitsAux (n + 1) n)

/-- Python `str(i)` for an int. -/
def intStr (i : Int) : String :=
  if i < 0 then String.mk ('-' :: natDigitsAux (i.natAbs + 1) i.natAbs)
  else natStr i.natAbs

/-- Decimal digits of the fraction `rem / den` (`rem < den`), fuel-bounded. -/
def fracDigitsAux : Nat → Nat → Nat → List Char
  | 0, _, _ => []
  | fuel + 1, rem, den =>
      if rem = 0 then []
      else digitChar (rem * 10 / den) :: fracDigitsAux fuel (rem * 10 % den) den

/-- Python `str(f)` for a float: sign, integer part, a decimal point, and the
fraction digits (at least one, as Python always prints, e.g. `"1.0"`). -/
def floatStr (f : PyFloat) : String :=
  let n := f.num.natAbs
  let ip := n / f.den
  let ds := fracDigitsAux 17 (n % f.den) f.den
  String.mk ((if f.num < 0 then ['-'] else []) ++ natDigitsAux (ip + 1) ip ++
    '.' :: (if ds.isEmpty then ['0'] else ds))

/-- Python `six.text_type(v)` / `str(v)` on a stats value. -/
def pyNumStr : PyNum → String
  | .int i => intStr i
  | .float f => floatStr f

/-- The two ways `merge_trees` can raise: the collector generator finishing
early (its `send` then raises `StopIteration`), and `float(value)` raising
`ValueError` on a non-numeric attribute value. -/
inductive MergeErr where
  | stopIteration
  | valueError
deriving DecidableEq

/-- The `stats` dict of `merge_trees` (fixed keys, insertion order
`tests, disabled, skipped, failures, errors, time`). -/
structure Stats where
  tests : PyNum
  disabled : PyNum
  skipped : PyNum
  failures : PyNum
  errors : PyNum
  time : PyNum
deriving DecidableEq

/-- The initial `stats` dict: every key maps to the int `0`. -/
def stats0 : Stats := ⟨.int 0, .int 0, .int 0, .int 0, .int 0, .int 0⟩

/-- `stats.keys()` in insertion order. -/
def statKeys : List String :=
  ["tests", "disabled", "skipped", "failures", "errors", "time"]

/-- `stats[key]` (read). -/
def statLookup (s : Stats) : String → PyNum
  | "tests" => s.tests
  | "disabled" => s.disabled
  | "skipped" => s.skipped
  | "failures" => s.failures
  | "errors" => s.errors
  | _ => s.time

/-- `stats[key] = v` (write). -/
def statSet (s : Stats) (k : String) (v : PyNum) : Stats :=
  match k with
  | "tests" => { s with tests := v }
  | "disabled" => { s with disabled := v }
  | "skipped" => { s with skipped := v }
  | "failures" => { s with failures := v }
  | "errors" => { s with errors := v }
  | _ => { s with time := v }

/-- One iteration of the `for key in stats.keys()` body of `collecter`
(xmerge.py lines 95-101):

    value = elem.attrib.get(key)
    if value:
        stats[key] = float(value) + float(stats.get(key, 0))
        if key != 'time':
            stats[key] = int(stats[key])

`float(value)` raising `ValueError` on a non-numeric string is the `.error`
case; an absent or empty (falsy) value leaves `stats` untouched. -/
def collectKey (s : Stats) (e : Element) (k : String) : Except MergeErr Stats :=
  match attribGet e.attrib k with
  | none => .ok s
  | some value =>
      if value = "" then .ok s
      else
        match pyFloat? value with
        | none => .error .valueError
        | some q =>
            let s1 := statSet s k (.float (q.add (statLookup s k).toFloat))
            .ok (if k = "time" then s1 else statSet s1 k (.int (statLookup s1 k).toInt))

/-- The `for key in stats.keys()` loop of `collecter` over a key list. -/
def collectKeys (s : Stats) (e : Element) : List String → Except MergeErr Stats
  | [] => .ok s
  | k :: ks =>
      match collectKey s e k with
      | .error err => .error err
      | .ok s1 => collectKeys s1 e ks

/-- The body of `collecter` run for one element sent into the generator. -/
def collectElem (s : Stats) (e : Element) : Except MergeErr Stats :=
  collectKeys s e statKeys

/-- The `collecter` generator driven over the merged children (xmerge.py
lines 91-101 and 122-125).  For each child sent in, `if not len(elem):
return` makes the generator finish on a childless child, so that `c.send`
raises `StopIteration` out of `merge_trees`; otherwise the child's attributes
are accumulated. -/
def collecter : Stats → List Element → Except MergeErr Stats
  | s, [] => .ok s
  | s, e :: es =>
      if e.children.length = 0 then .error .stopIteration
      else
        match collectElem s e with
        | .error err => .error err
        | .ok s1 => collecter s1 es

/-- `stats.items()` rendered to string attributes, in insertion order, as
written onto the merged root by `merged_root.set(key, six.text_type(value))`
(xmerge.py lines 128-129). -/
def statsItems (s : Stats) : List (String × String) :=
  [("tests", pyNumStr s.tests), ("disabled", pyNumStr s.disabled),
   ("skipped", pyNumStr s.skipped), ("failures", pyNumStr s.failures),
   ("errors", pyNumStr s.errors), ("time", pyNumStr s.time)]

/-- `merge_trees(*trees)` (xmerge.py lines 85-136).  A tree is represented by
its root element.  With exactly one input the tree is returned unchanged.
Otherwise a fresh `testsuites` element is created, the direct children of
every input root are appended to it in order, the collector is driven over
the merged children, the stats are set as string attributes, and
`del merged_root.attrib['name']` (a no-op wrapped in `try/except KeyError`,
modelled by dropping any `name` entry) is applied. -/
def merge_trees (trees : List Element) : Except MergeErr Element :=
  match trees with
  | [t] => .ok t
  | _ =>
      let mergedChildren := (trees.map Element.children).flatten
      match collecter stats0 mergedChildren with
      | .error err => .error err
      | .ok st =>
          .ok (Element.mk "testsuites"
            ((statsItems st).filter (fun kv => kv.1 != "name"))
            none mergedChildren none)

/-- Projection used to state evaluation facts about a failed merge. -/
def exceptErr : Except MergeErr Element → Option MergeErr
  | .error err => some err
  | .ok _ => none

/-- The tags whose text is written as CDATA (`CNAME_TAGS`, xmerge.py line 9). -/
def CNAME_TAGS : List String :=
  ["system-out", "system-err", "skipped", "error", "failure"]

/-- The CNAME_PATTERN format applied to a text (xmerge.py line 10). -/
def cnamePatternFmt (text : String) : String := "<![CDATA[" ++ text ++ "]]>"

/-- The TAG_PATTERN format applied to a tag, attribute string and text
(xmerge.py line 11). -/
def tagPatternFmt (tag attrs text : String) : String :=
  "<" ++ tag ++ attrs ++ ">" ++ text ++ "</" ++ tag ++ ">"

def dquoteChar : Char := Char.ofNat 34

def squoteChar : Char := Char.ofNat 39

/-- `xml.sax.saxutils.escape`: escape the characters ampersand, less-than and
greater-than of one character. -/
def saxEscapeChar (c : Char) : List Char :=
  if c = '&' then "&amp;".data
  else if c = '<' then "&lt;".data
  else if c = '>' then "&gt;".data
  else [c]

def saxEscape (s : String) : String := String.mk ((s.data.map saxEscapeChar).flatten)

def replaceDquote (s : String) : String :=
  String.mk ((s.data.map (fun c => if c = dquoteChar then "&quot;".data else [c])).flatten)

/-- `xml.sax.saxutils.quoteattr`: escape the value and wrap it in quotes,
preferring double quotes, switching to single quotes when the value contains
a double quote, and falling back to `&quot;` when it contains both. -/
def quoteattr (v : String) : String :=
  let d := saxEscape v
  if d.data.contains dquoteChar then
    if d.data.contains squoteChar then
      String.mk [dquoteChar] ++ replaceDquote d ++ String.mk [dquoteChar]
    else String.mk [squoteChar] ++ d ++ String.mk [squoteChar]
  else String.mk [dquoteChar] ++ d ++ String.mk [dquoteChar]

def charListLt : List Char → List Char → Bool
  | [], [] => false
  | [], _ :: _ => true
  | _ :: _, [] => false
  | a :: as, b :: bs =>
      if a.toNat < b.toNat then true
      else if a.toNat = b.toNat then charListLt as bs
      else false

/-- Python tuple comparison on `(key, value)` attribute items. -/
def pairLe (p q : String × String) : Bool :=
  charListLt p.1.data q.1.data ||
    (p.1 == q.1 && !(charListLt q.2.data p.2.data))

def insertPair (p : String × String) :
    List (String × String) → List (String × String)
  | [] => [p]
  | q :: rest => if pairLe p q then p :: q :: rest else q :: insertPair p rest

/-- Python `sorted(elem.attrib.items())`. -/
def sortPairs (l : List (String × String)) : List (String × String) :=
  l.foldr insertPair []

/-- Python `' '.join(parts)`. -/
def joinSpace : List String → String
  | [] => ""
  | [s] => s
  | s :: rest => s ++ " " ++ joinSpace rest

/-- The attribute string built by the patched serializer for a CNAME tag
(xmerge.py lines 58-62): the items sorted, each rendered as `key=` followed
by `quoteattr(value)`, joined by single spaces, with a leading space when
nonempty. -/
def cnameAttrs (attrib : List (String × String)) : String :=
  let a := joinSpace ((sortPairs attrib).map (fun kv => kv.1 ++ "=" ++ quoteattr kv.2))
  if a = "" then "" else " " ++ a

/-- `ElementTree._escape_cdata`: text content escaping (ampersand, less-than,
greater-than). -/
def escape_cdata (s : String) : String := saxEscape s

/-- `ElementTree._escape_attrib`: attribute value escaping for the standard
serializer (ampersand, less-than, greater-than, double quote, and literal
carriage-return / newline / tab as character references). -/
def escapeAttribChar (c : Char) : List Char :=
  if c = '&' then "&amp;".data
  else if c = '<' then "&lt;".data
  else if c = '>' then "&gt;".data
  else if c = dquoteChar then "&quot;".data
  else if c = Char.ofNat 13 then "&#13;".data
  else if c = Char.ofNat 10 then "&#10;".data
  else if c = Char.ofNat 9 then "&#09;".data
  else [c]

def escape_attrib (s : String) : String :=
  String.mk ((s.data.map escapeAttribChar).flatten)

/-- The attribute string written by the standard serializer: each item in
insertion order as a space, the key, `=`, and the escaped value in double
quotes. -/
def stdAttrs (attrib : List (String × String)) : String :=
  String.join (attrib.map (fun kv =>
    " " ++ kv.1 ++ "=" ++ String.mk [dquoteChar] ++ escape_attrib kv.2 ++ String.mk [dquoteChar]))

/-- Python truthiness of an optional text (`None` and the empty string are
falsy). -/
def textTruthy : Option String → Bool
  | none => false
  | some s => s != ""

def textStr : Option String → String
  | none => ""
  | some s => s

/-- Python `'...{}...'.format(x)` string conversion of `elem.text`: `None`
formats as the string `None`. -/
def pyTextStr : Option String → String
  | none => "None"
  | some s => s

/-- The body of the standard serializer for one element, abstracted over
whether the child list is empty and over the serialized children: the open
tag with escaped attributes; then, when the text is truthy or children
exist, the escaped text, the children and the close tag, else the
self-closing form; then the escaped tail when truthy. -/
def stdElementStr (tag : String) (attrib : List (String × String))
    (text tail : Option String) (childrenEmpty : Bool) (childrenOut : String) : String :=
  "<" ++ tag ++ stdAttrs attrib ++
    (if textTruthy text || !childrenEmpty then
      ">" ++ (if textTruthy text then escape_cdata (textStr text) else "") ++
        childrenOut ++ "</" ++ tag ++ ">"
    else " />") ++
    (if textTruthy tail then escape_cdata (textStr tail) else "")

mutual

/-- The `_serialize_xml` replacement installed by `patch_etree_cname`
(xmerge.py lines 56-76).  For an element whose tag is in `CNAME_TAGS` it
writes exactly the TAG_PATTERN content: open tag with sorted, quoted
attributes, the text as a CDATA section, and the close tag — children and
tail are not visited.  For every other element it delegates to the original
`_serialize_xml`; since that routine recurses through the patched module
global, its child serialization re-enters this function. -/
def serialize_patched : Element → String
  | .mk tag attrib text children tail =>
      if CNAME_TAGS.contains tag then
        tagPatternFmt tag (cnameAttrs attrib) (cnamePatternFmt (pyTextStr text))
      else
        stdElementStr tag attrib text tail children.isEmpty
          (serialize_patchedList children)

def serialize_patchedList : List Element → String
  | [] => ""
  | c :: cs => serialize_patched c ++ serialize_patchedList cs

end

mutual

/-- Modelled from the spec: the standard (unpatched) ElementTree
`_serialize_xml` routine, an external collaborator of this repository —
"tag, attributes escaped normally, text escaped normally, recursive descent
into children", with the self-closing short form for childless, textless
elements and the tail written after the element. -/
def serialize_std : Element → String
  | .mk tag attrib text children tail =>
      stdElementStr tag attrib text tail children.isEmpty
        (serialize_stdList children)

def serialize_stdList : List Element → String
  | [] => ""
  | c :: cs => serialize_std c ++ serialize_stdList cs

end

mutual

/-- No element of this tree has a tag in `CNAME_TAGS`. -/
def noCdata : Element → Bool
  | .mk tag _ _ children _ => !(CNAME_TAGS.contains tag) && noCdataList children

def noCdataList : List Element → Bool
  | [] => true
  | c :: cs => noCdata c && noCdataList cs

end

/-- A serializer function object as tracked for `patch_etree_cname`:
either the module's standard `_serialize_xml`, or the replacement closure
built by one activation (which captures the routine it saw installed as
`original_serialize`). -/
inductive SerFn where
  | std : SerFn
  | cnamePatch : SerFn → SerFn
deriving DecidableEq

/-- The process-global serializer state mutated by `patch_etree_cname`: the
module attribute `etree._serialize_xml` and the dispatch entry
`etree._serialize['xml']`. -/
structure EtreeState where
  serialize_xml : SerFn
  serialize_dict_xml : SerFn
deriving DecidableEq

/-- What the body of the `with` block does: returns a value or raises. -/
inductive BodyOutcome (α : Type) where
  | ok : α → BodyOutcome α
  | raised : BodyOutcome α

/-- The `patch_etree_cname` context manager (xmerge.py lines 14-82) applied
to a body, with `@contextmanager` generator semantics.  On entry both global
slots are set to the replacement closure capturing `original_serialize`.  The
single `yield` is not wrapped in `try/finally`, so if the body raises, the
exception is thrown into the generator at the `yield` and propagates at once:
the two restoring assignments after the `yield` never run and the state is
left exactly as the body left it.  Only on normal completion are both slots
assigned back to `original_serialize`. -/
def patch_etree_cname {α : Type} (s : EtreeState)
    (body : EtreeState → BodyOutcome α × EtreeState) : BodyOutcome α × EtreeState :=
  let original_serialize := s.serialize_xml
  let patched : EtreeState := ⟨.cnamePatch original_serialize, .cnamePatch original_serialize⟩
  match body patched with
  | (.ok a, _) => (.ok a, ⟨original_serialize, original_serialize⟩)
  | (.raised, s2) => (.raised, s2)

/-- The exact rational contribution of one merged child to one statistics
key: the parsed value of its attribute, and `0` when the attribute is
absent, empty, or unparsable. -/
def contrib (e : Element) (k : String) : ℚ :=
  match attribGet e.attrib k with
  | none => 0
  | some v =>
      if v = "" then 0
      else
        match pyFloat? v with
        | none => 0
        | some q => q.toRat

/-- The sum of the contributions of a list of children to one key. -/
def contribSum (k : String) : List Element → ℚ
  | [] => 0
  | e :: es => contrib e k + contribSum k es

def PyNum.isInt : PyNum → Bool
  | .int _ => true
  | .float _ => false

/-- All five count statistics are stored as Python ints. -/
def IntStats (s : Stats) : Bool :=
  s.tests.isInt && s.disabled.isInt && s.skipped.isInt &&
    s.failures.isInt && s.errors.isInt

/-- The statistics keys other than `time`. -/
def intKeys : List String := ["tests", "disabled", "skipped", "failures", "errors"]

theorem PyFloat.toRat_add {a b : PyFloat} (ha : 0 < a.den) (hb : 0 < b.den) :
    (a.add b).toRat = a.toRat + b.toRat := by
  have ha' : ((a.den : Int) : ℚ) ≠ 0 := by
    simp only [ne_eq, Int.cast_eq_zero, Int.natCast_eq_zero]
    omega
  have hb' : ((b.den : Int) : ℚ) ≠ 0 := by
    simp only [ne_eq, Int.cast_eq_zero, Int.natCast_eq_zero]
    omega
  unfold PyFloat.add PyFloat.toRat
  push_cast
  push_cast at ha' hb'
  field_simp

theorem PyNum.toFloat_toRat (v : PyNum) : v.toFloat.toRat = v.toRat := by
  cases v with
  | int i => simp [PyNum.toFloat, PyNum.toRat, PyFloat.toRat]
  | float f => rfl

theorem PyNum.toFloat_denPos {v : PyNum} (h : v.denPos) : 0 < v.toFloat.den := by
  cases v with
  | int i => exact Nat.one_pos
  | float f => exact h

theorem pyFloat?_denPos {v : String} {q : PyFloat} (h : pyFloat? v = some q) :
    0 < q.den := by
  unfold pyFloat? at h
  split at h
  · split at h
    · exact absurd h (by simp)
    · injection h with h
      subst h
      exact Nat.one_pos
  · split at h
    · exact absurd h (by simp)
    · injection h with h
      subst h
      exact Nat.pos_pow_of_pos _ (by norm_num)
  · exact absurd h (by simp)

theorem digitChar_mem_digits (d : Nat) :
    digitChar d ∈ ['0', '1', '2', '3', '4', '5', '6', '7', '8', '9'] := by
  unfold digitChar
  split <;> decide

theorem natDigitsAux_mem_digits :
    ∀ (fuel n : Nat) (c : Char), c ∈ natDigitsAux fuel n →
      c ∈ ['0', '1', '2', '3', '4', '5', '6', '7', '8', '9']
  | 0, _, _, h => absurd h (by simp [natDigitsAux])
  | fuel + 1, n, c, h => by
      unfold natDigitsAux at h
      split at h
      · simp only [List.mem_singleton] at h
        exact h ▸ digitChar_mem_digits n
      · rcases List.mem_append.mp h with h1 | h1
        · exact natDigitsAux_mem_digits fuel (n / 10) c h1
        · simp only [List.mem_singleton] at h1
          exact h1 ▸ digitChar_mem_digits (n % 10)

theorem dot_not_mem_intStr (i : Int) : '.' ∉ (intStr i).data := by
  unfold intStr natStr
  split
  · intro h
    simp only [String.data] at h
    rcases List.mem_cons.mp h with h1 | h1
    · exact absurd h1.symm (by decide)
    · have := natDigitsAux_mem_digits _ _ _ h1
      revert this
      decide
  · intro h
    simp only [String.data] at h
    have := natDigitsAux_mem_digits _ _ _ h
    revert this
    decide

theorem dot_mem_floatStr (f : PyFloat) : '.' ∈ (floatStr f).data := by
  unfold floatStr
  simp only [String.data]
  refine List.mem_append_right _ ?_
  exact List.mem_cons_self _ _

theorem collectKey_time_ok {s s' : Stats} {e : Element}
    (h : collectKey s e "time" = .ok s') (hd : s.time.denPos) :
    s'.time.toRat = s.time.toRat + contrib e "time" ∧ s'.time.denPos ∧
      s'.tests = s.tests ∧ s'.disabled = s.disabled ∧ s'.skipped = s.skipped ∧
      s'.failures = s.failures ∧ s'.errors = s.errors := by
  unfold collectKey at h
  split at h
  next hv =>
    injection h with h
    subst h
    exact ⟨by simp [contrib, hv], hd, rfl, rfl, rfl, rfl, rfl⟩
  next v hv =>
    split at h
    next hve =>
      injection h with h
      subst h
      exact ⟨by simp [contrib, hv, hve], hd, rfl, rfl, rfl, rfl, rfl⟩
    next hve =>
      split at h
      next hq => exact absurd h (by simp)
      next q hq =>
        injection h with h
        subst h
        have hcontrib : contrib e "time" = q.toRat := by
          simp [contrib, hv, hve, hq]
        refine ⟨?_, ?_, rfl, rfl, rfl, rfl, rfl⟩
        · rw [hcontrib]
          show (q.add s.time.toFloat).toRat = s.time.toRat + q.toRat
          rw [PyFloat.toRat_add (pyFloat?_denPos hq) (PyNum.toFloat_denPos hd),
            PyNum.toFloat_toRat]
          ring
        · show 0 < q.den * s.time.toFloat.den
          exact Nat.mul_pos (pyFloat?_denPos hq) (PyNum.toFloat_denPos hd)

theorem collectKey_int_ok {s s' : Stats} {e : Element} {k : String}
    (hk : k ∈ intKeys) (h : collectKey s e k = .ok s') :
    s'.time = s.time ∧ (IntStats s = true → IntStats s' = true) := by
  fin_cases hk
  all_goals (
    unfold collectKey at h
    split at h
    next hv =>
      injection h with h
      subst h
      exact ⟨rfl, id⟩
    next v hv =>
      split at h
      next hve =>
        injection h with h
        subst h
        exact ⟨rfl, id⟩
      next hve =>
        split at h
        next hq => exact absurd h (by simp)
        next q hq =>
          injection h with h
          subst h
          exact ⟨rfl, fun hs => by simp_all [IntStats, PyNum.isInt, statSet]⟩)

theorem collectElem_ok {s s' : Stats} {e : Element}
    (h : collectElem s e = .ok s') (hd : s.time.denPos) :
    s'.time.toRat = s.time.toRat + contrib e "time" ∧ s'.time.denPos ∧
      (IntStats s = true → IntStats s' = true) := by
  unfold collectElem statKeys at h
  simp only [collectKeys] at h
  cases h1 : collectKey s e "tests" with
  | error err => simp [h1] at h
  | ok s1 =>
  simp only [h1] at h
  cases h2 : collectKey s1 e "disabled" with
  | error err => simp [h2] at h
  | ok s2 =>
  simp only [h2] at h
  cases h3 : collectKey s2 e "skipped" with
  | error err => simp [h3] at h
  | ok s3 =>
  simp only [h3] at h
  cases h4 : collectKey s3 e "failures" with
  | error err => simp [h4] at h
  | ok s4 =>
  simp only [h4] at h
  cases h5 : collectKey s4 e "errors" with
  | error err => simp [h5] at h
  | ok s5 =>
  simp only [h5] at h
  cases h6 : collectKey s5 e "time" with
  | error err => simp [h6] at h
  | ok s6 =>
  simp only [h6, Except.ok.injEq] at h
  subst h
  obtain ⟨t1, i1⟩ := collectKey_int_ok (by decide) h1
  obtain ⟨t2, i2⟩ := collectKey_int_ok (by decide) h2
  obtain ⟨t3, i3⟩ := collectKey_int_ok (by decide) h3
  obtain ⟨t4, i4⟩ := collectKey_int_ok (by decide) h4
  obtain ⟨t5, i5⟩ := collectKey_int_ok (by decide) h5
  have hd5 : s5.time.denPos := by
    rw [t5, t4, t3, t2, t1]
    exact hd
  obtain ⟨ht, hdp, e1, e2, e3, e4, e5⟩ := collectKey_time_ok h6 hd5
  refine ⟨?_, hdp, ?_⟩
  · rw [ht, t5, t4, t3, t2, t1]
  · have hagree : IntStats s6 = IntStats s5 := by
      simp [IntStats, e1, e2, e3, e4, e5]
    exact fun hs => hagree ▸ i5 (i4 (i3 (i2 (i1 hs))))

theorem collecter_ok : ∀ (cs : List Element) (s s' : Stats),
    collecter s cs = .ok s' → s.time.denPos →
    s'.time.toRat = s.time.toRat + contribSum "time" cs ∧ s'.time.denPos ∧
      (IntStats s = true → IntStats s' = true)
  | [], s, s', h, hd => by
      unfold collecter at h
      injection h with h
      subst h
      exact ⟨by simp [contribSum], hd, id⟩
  | e :: es, s, s', h, hd => by
      unfold collecter at h
      split at h
      · exact absurd h (by simp)
      · cases h1 : collectElem s e with
        | error err => rw [h1] at h; exact absurd h (by simp)
        | ok s1 =>
            rw [h1] at h
            obtain ⟨ha, hb, hc⟩ := collectElem_ok h1 hd
            obtain ⟨ia, ib, ic⟩ := collecter_ok es s1 s' h hb
            refine ⟨?_, ib, fun hs => ic (hc hs)⟩
            rw [ia, ha, contribSum]
            ring

theorem merge_trees_ok_elim {trees : List Element} {t : Element}
    (hn : trees.length ≠ 1) (h : merge_trees trees = .ok t) :
    ∃ st, collecter stats0 ((trees.map Element.children).flatten) = .ok st ∧
      t = Element.mk "testsuites"
        ((statsItems st).filter (fun kv => kv.1 != "name"))
        none ((trees.map Element.children).flatten) none := by
  cases trees with
  | nil =>
      simp only [merge_trees] at h
      cases hcol : collecter stats0 (List.map Element.children []).flatten with
      | error err =>
          rw [hcol] at h
          exact absurd h (by simp)
      | ok st =>
          rw [hcol] at h
          injection h with h
          exact ⟨st, rfl, h.symm⟩
  | cons a as =>
      cases as with
      | nil => exact absurd rfl hn
      | cons b bs =>
          simp only [merge_trees] at h
          cases hcol : collecter stats0 (List.map Element.children (a :: b :: bs)).flatten with
          | error err =>
              rw [hcol] at h
              exact absurd h (by simp)
          | ok st =>
              rw [hcol] at h
              injection h with h
              exact ⟨st, rfl, h.symm⟩

mutual

theorem patched_eq_std_aux : ∀ (e : Element), noCdata e = true →
    serialize_patched e = serialize_std e
  | .mk tag attrib text children tail, h => by
      simp only [noCdata, Bool.and_eq_true, Bool.not_eq_true'] at h
      simp only [serialize_patched, serialize_std, h.1, Bool.false_eq_true, if_false]
      rw [patchedList_eq_stdList_aux children h.2]

theorem patchedList_eq_stdList_aux : ∀ (l : List Element), noCdataList l = true →
    serialize_patchedList l = serialize_stdList l
  | [], _ => rfl
  | c :: cs, h => by
      simp only [noCdataList, Bool.and_eq_true] at h
      simp only [serialize_patchedList, serialize_stdList]
      rw [patched_eq_std_aux c h.1, patchedList_eq_stdList_aux cs h.2]

end

/-! Concrete inputs used by the witnesses and evaluation theorems. -/

def wInner : Element := .mk "testcase" [] none [] none

def wSuiteA : Element := .mk "testsuite" [("tests", "3"), ("time", "0.5")] none [wInner] none

def wSuiteB : Element := .mk "testsuite" [("tests", "4"), ("time", "0.25")] none [wInner] none

def wTreeA : Element := .mk "testsuites" [("name", "a")] none [wSuiteA] none

def wTreeB : Element := .mk "testsuites" [("name", "b")] none [wSuiteB] none

def wMerged : Element :=
  .mk "testsuites"
    [("tests", "7"), ("disabled", "0"), ("skipped", "0"), ("failures", "0"),
     ("errors", "0"), ("time", "0.75")]
    none [wSuiteA, wSuiteB] none

theorem wMerge_eq : merge_trees [wTreeA, wTreeB] = .ok wMerged := rfl

/-- C5: a merge of exactly one tree returns that tree unchanged — no
`testsuites` wrapper, no aggregation attributes added, no `name` attribute
removed (xmerge.py lines 103-104). -/
theorem merge_single_tree_unchanged (t : Element) : merge_trees [t] = .ok t := rfl

/-- C4: in a successful merge of at least two trees, the returned root is a
`testsuites` element whose ordered children are exactly the concatenation,
in input order, of the direct children of every input root, so its child
count is the sum of the inputs' root child counts (xmerge.py lines
118-120). -/
theorem merge_container_children_concat {trees : List Element} {t : Element}
    (h2 : 2 ≤ trees.length) (h : merge_trees trees = .ok t) :
    t.tag = "testsuites" ∧
    t.children = (trees.map Element.children).flatten ∧
    t.children.length = (trees.map (fun tr => tr.children.length)).sum := by
  have hn : trees.length ≠ 1 := by omega
  obtain ⟨st, hcol, ht⟩ := merge_trees_ok_elim hn h
  subst ht
  refine ⟨rfl, rfl, ?_⟩
  show ((trees.map Element.children).flatten).length = _
  rw [List.length_flatten]
  simp only [List.map_map]
  rfl

/-- Witness for C4 at a concrete two-tree merge. -/
theorem merge_container_children_concat_witness :
    wMerged.tag = "testsuites" ∧
    wMerged.children = ([wTreeA, wTreeB].map Element.children).flatten ∧
    wMerged.children.length = ([wTreeA, wTreeB].map (fun tr => tr.children.length)).sum :=
  merge_container_children_concat (by decide) wMerge_eq

/-- C9: the root returned by a successful merge of at least two trees never
carries a `name` attribute: the `try: del merged_root.attrib['name'] except
KeyError: pass` step removes it when present, and its absence does not make
the merge fail (xmerge.py lines 131-134). -/
theorem merged_root_no_name {trees : List Element} {t : Element}
    (h2 : 2 ≤ trees.length) (h : merge_trees trees = .ok t) :
    attribGet t.attrib "name" = none := by
  have hn : trees.length ≠ 1 := by omega
  obtain ⟨st, hcol, ht⟩ := merge_trees_ok_elim hn h
  subst ht
  rfl

/-- Witness for C9 at a concrete two-tree merge. -/
theorem merged_root_no_name_witness : attribGet wMerged.attrib "name" = none :=
  merged_root_no_name (by decide) wMerge_eq

/-- C8: in a successful merge of at least two trees the five count keys are
accumulated as Python ints (`int(...)` after every addition) while `time`
accumulates as an exact float sum with no truncation; on the merged root the
count attributes are decimal-int strings containing no decimal point, and
the `time` attribute is the string of the accumulated value, float
formatting always carrying a decimal point (xmerge.py lines 96-101 and
128-129). -/
theorem merge_stats_num_types {trees : List Element} {t : Element}
    (h2 : 2 ≤ trees.length) (h : merge_trees trees = .ok t) :
    (∃ st : Stats,
      collecter stats0 ((trees.map Element.children).flatten) = .ok st ∧
      IntStats st = true ∧
      (∀ k ∈ intKeys, ∃ i : Int, statLookup st k = PyNum.int i ∧
        attribGet t.attrib k = some (intStr i)) ∧
      attribGet t.attrib "time" = some (pyNumStr st.time) ∧
      st.time.toRat = contribSum "time" ((trees.map Element.children).flatten)) ∧
    (∀ i : Int, '.' ∉ (intStr i).data) ∧
    (∀ f : PyFloat, '.' ∈ (floatStr f).data) := by
  have hn : trees.length ≠ 1 := by omega
  obtain ⟨st, hcol, ht⟩ := merge_trees_ok_elim hn h
  obtain ⟨ha, hb, hc⟩ := collecter_ok _ _ _ hcol trivial
  have hint : IntStats st = true := hc rfl
  subst ht
  have hTests : ∃ i, st.tests = PyNum.int i := by
    cases hi : st.tests with
    | int i => exact ⟨i, rfl⟩
    | float f => simp [IntStats, hi, PyNum.isInt] at hint
  have hDisabled : ∃ i, st.disabled = PyNum.int i := by
    cases hi : st.disabled with
    | int i => exact ⟨i, rfl⟩
    | float f => simp [IntStats, hi, PyNum.isInt] at hint
  have hSkipped : ∃ i, st.skipped = PyNum.int i := by
    cases hi : st.skipped with
    | int i => exact ⟨i, rfl⟩
    | float f => simp [IntStats, hi, PyNum.isInt] at hint
  have hFailures : ∃ i, st.failures = PyNum.int i := by
    cases hi : st.failures with
    | int i => exact ⟨i, rfl⟩
    | float f => simp [IntStats, hi, PyNum.isInt] at hint
  have hErrors : ∃ i, st.errors = PyNum.int i := by
    cases hi : st.errors with
    | int i => exact ⟨i, rfl⟩
    | float f => simp [IntStats, hi, PyNum.isInt] at hint
  refine ⟨⟨st, hcol, hint, ?_, rfl, ?_⟩, dot_not_mem_intStr, dot_mem_floatStr⟩
  · intro k hk
    fin_cases hk
    · obtain ⟨i, hi⟩ := hTests
      refine ⟨i, by rw [show statLookup st "tests" = st.tests from rfl, hi], ?_⟩
      show some (pyNumStr st.tests) = some (intStr i)
      rw [hi]
      rfl
    · obtain ⟨i, hi⟩ := hDisabled
      refine ⟨i, by rw [show statLookup st "disabled" = st.disabled from rfl, hi], ?_⟩
      show some (pyNumStr st.disabled) = some (intStr i)
      rw [hi]
      rfl
    · obtain ⟨i, hi⟩ := hSkipped
      refine ⟨i, by rw [show statLookup st "skipped" = st.skipped from rfl, hi], ?_⟩
      show some (pyNumStr st.skipped) = some (intStr i)
      rw [hi]
      rfl
    · obtain ⟨i, hi⟩ := hFailures
      refine ⟨i, by rw [show statLookup st "failures" = st.failures from rfl, hi], ?_⟩
      show some (pyNumStr st.failures) = some (intStr i)
      rw [hi]
      rfl
    · obtain ⟨i, hi⟩ := hErrors
      refine ⟨i, by rw [show statLookup st "errors" = st.errors from rfl, hi], ?_⟩
      show some (pyNumStr st.errors) = some (intStr i)
      rw [hi]
      rfl
  · rw [ha]
    simp [stats0, PyNum.toRat]

/-- Witness for C8 at a concrete two-tree merge. -/
theorem merge_stats_num_types_witness :
    (∃ st : Stats,
      collecter stats0 (([wTreeA, wTreeB].map Element.children).flatten) = .ok st ∧
      IntStats st = true ∧
      (∀ k ∈ intKeys, ∃ i : Int, statLookup st k = PyNum.int i ∧
        attribGet wMerged.attrib k = some (intStr i)) ∧
      attribGet wMerged.attrib "time" = some (pyNumStr st.time) ∧
      st.time.toRat = contribSum "time" (([wTreeA, wTreeB].map Element.children).flatten)) ∧
    (∀ i : Int, '.' ∉ (intStr i).data) ∧
    (∀ f : PyFloat, '.' ∈ (floatStr f).data) :=
  merge_stats_num_types (by decide) wMerge_eq

def crashLeaf : Element := .mk "testcase" [("tests", "1")] none [] none

def crashTreeA : Element := .mk "testsuite" [] none [crashLeaf] none

def crashTreeB : Element := .mk "testsuite" [] none [crashLeaf] none

/-- C1: evaluation of `merge_trees` showing the claim false on the code.  A
merged child with no children makes the collector generator return, so the
`c.send(child)` in `merge_trees` raises `StopIteration` and no totals are
produced at all (first conjunct), while children that do have children are
the ones whose attributes are accumulated — here two children carrying
`tests="3"` and `tests="4"` (and one nested grandchild each) yield
`tests="7"`, where the claim says such nested containers contribute
nothing (remaining conjuncts). -/
theorem merge_leaf_crash_container_summed :
    exceptErr (merge_trees [crashTreeA, crashTreeB]) = some MergeErr.stopIteration ∧
    merge_trees [wTreeA, wTreeB] = .ok wMerged ∧
    attribGet wMerged.attrib "tests" = some "7" := ⟨rfl, rfl, rfl⟩

def badSuite : Element := .mk "testsuite" [("tests", "abc")] none [wInner] none

def badTree : Element := .mk "testsuite" [] none [badSuite] none

/-- C2: evaluation of `merge_trees` showing the claim false on the code: a
non-empty, non-numeric statistics value on a contributing child makes
`float(value)` raise `ValueError`, aborting the whole merge instead of
being skipped (xmerge.py lines 96-101 have no guard around `float`). -/
theorem non_numeric_attr_raises :
    exceptErr (merge_trees [badTree, wTreeA]) = some MergeErr.valueError := rfl

/-- C3 counterexample: running the patched write over a body that raises
leaves the patched serializer installed — the global state after
`patch_etree_cname` is not the pre-activation state, because the `yield` in
the context manager is not protected by `try/finally` (xmerge.py lines
78-82). -/
theorem patch_not_restored_on_raise :
    (patch_etree_cname ⟨SerFn.std, SerFn.std⟩
      (fun s => ((BodyOutcome.raised : BodyOutcome Unit), s))).2 ≠
      (⟨SerFn.std, SerFn.std⟩ : EtreeState) := by decide

/-- C3 (amended): the original serializer is restored in both global slots
when the body completes normally; when the body raises, the state is left
exactly as the body left it — in particular the replacement closure (which
is never equal to the routine it wraps) remains installed when the body did
not itself change the slots. -/
theorem patch_restores_only_on_success {α : Type} (s0 : EtreeState)
    (body : EtreeState → BodyOutcome α × EtreeState) :
    (∀ (a : α) (s2 : EtreeState),
        body ⟨.cnamePatch s0.serialize_xml, .cnamePatch s0.serialize_xml⟩ = (.ok a, s2) →
        (patch_etree_cname s0 body).2 = ⟨s0.serialize_xml, s0.serialize_xml⟩) ∧
    (∀ s2 : EtreeState,
        body ⟨.cnamePatch s0.serialize_xml, .cnamePatch s0.serialize_xml⟩ = (.raised, s2) →
        (patch_etree_cname s0 body).2 = s2) ∧
    (∀ f : SerFn, SerFn.cnamePatch f ≠ f) := by
  refine ⟨?_, ?_, ?_⟩
  · intro a s2 hb
    simp only [patch_etree_cname, hb]
  · intro s2 hb
    simp only [patch_etree_cname, hb]
  · intro f
    induction f with
    | std => exact fun h => SerFn.noConfusion h
    | cnamePatch g ih => exact fun h => ih (SerFn.cnamePatch.inj h)

/-- Witness for the amended C3 at a concrete state and body. -/
theorem patch_restores_only_on_success_witness :
    (patch_etree_cname ⟨SerFn.std, SerFn.std⟩
      (fun _ => ((BodyOutcome.ok (), (⟨SerFn.cnamePatch SerFn.std,
        SerFn.cnamePatch SerFn.std⟩ : EtreeState))))).2 =
      (⟨SerFn.std, SerFn.std⟩ : EtreeState) :=
  (patch_restores_only_on_success ⟨SerFn.std, SerFn.std⟩ _).1 ()
    ⟨SerFn.cnamePatch SerFn.std, SerFn.cnamePatch SerFn.std⟩ rfl

/-- C6: serializing an element whose tag is in `CNAME_TAGS` and which has
text produces exactly the open tag with its (sorted, quoted) attributes
followed by the literal `<![CDATA[`, the exact original text verbatim (no
XML escaping), `]]>`, and the closing tag; in particular the CDATA-wrapped
text occurs as a contiguous infix of the output (xmerge.py lines 56-74). -/
theorem cname_text_verbatim {tag : String} {attrib : List (String × String)}
    {text : Option String} {children : List Element} {tail : Option String} {s : String}
    (htag : CNAME_TAGS.contains tag = true) (htext : text = some s) :
    serialize_patched (.mk tag attrib text children tail) =
      tagPatternFmt tag (cnameAttrs attrib) ("<![CDATA[" ++ s ++ "]]>") ∧
    List.IsInfix ("<![CDATA[" ++ s ++ "]]>").data
      (serialize_patched (.mk tag attrib text children tail)).data := by
  subst htext
  have hmem : tag ∈ CNAME_TAGS := by simpa using htag
  have h1 : serialize_patched (.mk tag attrib (some s) children tail) =
      tagPatternFmt tag (cnameAttrs attrib) ("<![CDATA[" ++ s ++ "]]>") := by
    simp [serialize_patched, hmem, cnamePatternFmt, pyTextStr]
  refine ⟨h1, ?_⟩
  rw [h1]
  unfold tagPatternFmt
  refine ⟨("<" ++ tag ++ cnameAttrs attrib ++ ">").data, ("</" ++ tag ++ ">").data, ?_⟩
  simp [String.data_append, List.append_assoc]

/-- Witness for C6: a `failure` element whose text contains characters that
would normally require escaping. -/
theorem cname_text_verbatim_witness :
    serialize_patched (.mk "failure" [] (some "a<&b") [] none) =
      tagPatternFmt "failure" (cnameAttrs []) ("<![CDATA[" ++ "a<&b" ++ "]]>") ∧
    List.IsInfix ("<![CDATA[" ++ "a<&b" ++ "]]>").data
      (serialize_patched (.mk "failure" [] (some "a<&b") [] none)).data :=
  cname_text_verbatim rfl rfl

/-- C7: on a tree in which no element's tag is in `CNAME_TAGS`, the patched
serializer delegates every element to the original routine unchanged, so its
output is byte-identical to the standard serializer's (xmerge.py lines
75-76); `serialize_std` is the spec-side model of the standard routine. -/
theorem patched_transparent_outside_cname (e : Element) (h : noCdata e = true) :
    serialize_patched e = serialize_std e :=
  patched_eq_std_aux e h

def wPlain : Element :=
  .mk "testsuite" [("name", "x"), ("q", "a<b")] (some "t&")
    [.mk "testcase" [] none [] (some "z>")] none

/-- Witness for C7 at a concrete CDATA-free tree. -/
theorem patched_transparent_outside_cname_witness :
    noCdata wPlain = true ∧ serialize_patched wPlain = serialize_std wPlain :=
  ⟨rfl, patched_transparent_outside_cname wPlain rfl⟩

/-- C10: for an element whose tag is in `CNAME_TAGS` the patched serializer
emits only the open tag with sorted, quoted attributes, the text as a CDATA
section and the closing tag: its child elements and tail text are omitted
entirely — the output equals that of the same element with no children and
no tail (xmerge.py lines 56-74 never visit `elem` children or tail). -/
theorem cname_children_tail_omitted {tag : String} {attrib : List (String × String)}
    {text : Option String} {children : List Element} {tail : Option String}
    (htag : CNAME_TAGS.contains tag = true) :
    serialize_patched (.mk tag attrib text children tail) =
      serialize_patched (.mk tag attrib text [] none) ∧
    serialize_patched (.mk tag attrib text children tail) =
      tagPatternFmt tag (cnameAttrs attrib) (cnamePatternFmt (pyTextStr text)) := by
  have hmem : tag ∈ CNAME_TAGS := by simpa using htag
  constructor <;> simp [serialize_patched, hmem]

/-- Witness for C10: a `system-out` element carrying a child and a tail. -/
theorem cname_children_tail_omitted_witness :
    serialize_patched (.mk "system-out" [("a", "b")] (some "out") [wInner] (some "tl")) =
      serialize_patched (.mk "system-out" [("a", "b")] (some "out") [] none) ∧
    serialize_patched (.mk "system-out" [("a", "b")] (some "out") [wInner] (some "tl")) =
      tagPatternFmt "system-out" (cnameAttrs [("a", "b")]) (cnamePatternFmt (pyTextStr (some "out"))) :=
  cname_children_tail_omitted rfl

end Xunitmerge

